import Mathlib

set_option maxHeartbeats 1000000

namespace Netcom

/-- Bytes of a buffer; each entry stands for one u8 of the Rust code. -/
abbrev Bytes := List Nat

/-- Mirror of netstring.rs NetstringError. -/
inductive NetstringError where
  | Incomplete
  | Malformed
deriving DecidableEq

/-- The digit-scanning loop of parse_netstring (netstring.rs lines 28 to 36):
consumes ASCII digits accumulating the declared length, stops after a colon
(byte 58) returning the index just past it and the accumulated length, fails
Malformed at any other byte, and reports Incomplete when the buffer runs out
without a colon (the Rust loop then ends with i equal to buf.len(), which
line 38 turns into Incomplete). -/
def scanLen : Bytes → Nat → Nat → Except NetstringError (Nat × Nat)
  | [], _, _ => .error .Incomplete
  | c :: rest, i, acc =>
    if 48 ≤ c ∧ c ≤ 57 then scanLen rest (i + 1) (acc * 10 + (c - 48))
    else if c = 58 then .ok (i + 1, acc)
    else .error .Malformed

/-- Mirror of netstring.rs parse_netstring: buffers shorter than 3 bytes are
Incomplete; then the digit scan runs; a colon as the very last byte is
Incomplete; a buffer shorter than prefix plus declared length plus one is
Incomplete; a byte other than a comma (44) after the payload is Malformed;
otherwise the payload slice is returned. -/
def parse_netstring (buf : Bytes) : Except NetstringError Bytes :=
  if buf.length < 3 then .error .Incomplete
  else
    match scanLen buf 0 0 with
    | .error e => .error e
    | .ok (i, len) =>
      if i = buf.length then .error .Incomplete
      else if buf.length < i + len + 1 then .error .Incomplete
      else if buf.getD (i + len) 0 ≠ 44 then .error .Malformed
      else .ok ((buf.drop i).take len)

/-- Decimal ASCII digits of n, most significant first: the bytes that
self.len().to_string() contributes in netstring.rs line 60. -/
def decDigits (n : Nat) : Bytes :=
  if n < 10 then [48 + n]
  else decDigits (n / 10) ++ [48 + n % 10]
decreasing_by exact Nat.div_lt_self (by omega) (by omega)

/-- Mirror of the ToNetstring implementation for String (netstring.rs lines 57
to 66), over the byte content of the string: the decimal digits of the byte
length, a colon, the payload bytes, a comma. -/
def to_netstring (payload : Bytes) : Bytes :=
  decDigits payload.length ++ [58] ++ payload ++ [44]

end Netcom

namespace Netcom

/-- Mirror of NetcomError (netcom.rs lines 15 to 23). The std io error payloads
are opaque to the protocol logic and modelled as bare numeric codes; the
serde_json and Utf8 error payloads are never inspected and carry no data
here. -/
inductive NetcomError where
  | NotConnected
  | StreamError (code : Nat)
  | NetstringError (e : NetstringError)
  | JsonError
  | Utf8Error
  | ResponseError (msg : String)
deriving DecidableEq

/-- Mirror of WrOp (netcom.rs lines 50 to 55). The f64 payload is carried
opaquely as a Lean Float; no arithmetic is ever performed on it. -/
inductive WrOp where
  | Default (p : String) (v : Float)
  | WithType (p : String) (t : String) (v : Float)

/-- Mirror of RdOp (netcom.rs lines 57 to 62). -/
inductive RdOp where
  | Default (p : String)
  | WithType (p : String) (t : String)

/-- Mirror of WrValueDto (dto.rs lines 53 to 58): Simple serializes untagged as
the bare number, Detailed as the object with keys v and t. -/
inductive WrValueDto where
  | Simple (v : Float)
  | Detailed (v : Float) (t : String)

/-- Mirror of RdValueDto (dto.rs lines 60 to 65): Default serializes as the
no-type marker, Detailed as the object with key t. -/
inductive RdValueDto where
  | Default
  | Detailed (t : String)

/-- Mirror of UpgradeResponseDto (dto.rs lines 5 to 8). -/
structure UpgradeResponseDto where
  version : String

/-- Mirror of DeviceListRequestDto (dto.rs lines 10 to 13). -/
structure DeviceListRequestDto where
  r : String

/-- Mirror of DeviceDto (dto.rs lines 15 to 24). -/
structure DeviceDto where
  id : Nat
  network : Nat
  name : String
  description : String
  device_type : String

/-- Mirror of DeviceListResponseDto (dto.rs lines 26 to 32); r is the field
deserialized from the JSON key R. -/
structure DeviceListResponseDto where
  r : String
  devices : List DeviceDto

/-- Mirror of ClientInfoRequestDto (dto.rs lines 34 to 38). -/
structure ClientInfoRequestDto where
  r : String
  name : String

/-- Mirror of ClientInfoResponseDto (dto.rs lines 40 to 44). -/
structure ClientInfoResponseDto where
  r : String

/-- Mirror of ReadRequestDto (dto.rs lines 46 to 51); the HashMap field p is
modelled as an association list with distinct keys. -/
structure ReadRequestDto where
  r : String
  device : String
  p : List (String × RdValueDto)

/-- Mirror of WriteRequestDto (dto.rs lines 67 to 72). -/
structure WriteRequestDto where
  r : String
  device : String
  p : List (String × WrValueDto)

/-- Mirror of ReadResponseDto (dto.rs lines 74 to 81): the result HashMap from
parameter name to optional f64 as an association list. -/
structure ReadResponseDto where
  r : String
  result : List (String × Option Float)

/-- Mirror of WriteResponseDto (dto.rs lines 83 to 90). -/
structure WriteResponseDto where
  r : String
  result : List (String × Option Float)

/-- Model of std HashMap insert on the association-list representation of the
map: an existing key has its value replaced in place, a new key is appended. -/
def hashMapInsert {α : Type} : List (String × α) → String → α → List (String × α)
  | [], k, v => [(k, v)]
  | (k₀, v₀) :: rest, k, v =>
    if k₀ = k then (k, v) :: rest else (k₀, v₀) :: hashMapInsert rest k v

/-- Model of std HashMap get on the association-list representation. -/
def lookupName {α : Type} : List (String × α) → String → Option α
  | [], _ => none
  | (k, v) :: rest, name => if k = name then some v else lookupName rest name

/-- One iteration of the write compilation loop (netcom.rs lines 364 to 369 and
the identical loops of the two client files): a Default op inserts the bare
value shape, a WithType op the detailed value-and-type shape, both under the
op's parameter name. -/
def wrStep (m : List (String × WrValueDto)) (op : WrOp) : List (String × WrValueDto) :=
  match op with
  | .Default p v => hashMapInsert m p (.Simple v)
  | .WithType p t v => hashMapInsert m p (.Detailed v t)

/-- The write compilation loop of write_parameters (netcom.rs lines 362 to 369,
netcom_client_sync.rs lines 194 to 201, netcom_client_async.rs lines 208 to
215): fold the ops into an initially empty map. -/
def compile_wrops (parameters : List WrOp) : List (String × WrValueDto) :=
  parameters.foldl wrStep []

/-- One iteration of the read compilation loop (netcom.rs lines 325 to 334). -/
def rdStep (m : List (String × RdValueDto)) (op : RdOp) : List (String × RdValueDto) :=
  match op with
  | .Default p => hashMapInsert m p RdValueDto.Default
  | .WithType p t => hashMapInsert m p (.Detailed t)

/-- The read compilation loop of NetcomClient::read_parameters (netcom.rs lines
323 to 334). -/
def compile_rdops (parameters : List RdOp) : List (String × RdValueDto) :=
  parameters.foldl rdStep []

/-- Modelled from the spec: build_read_request is imported from crate netcom by
netcom_client_sync.rs and netcom_client_async.rs but its definition is absent
from the source files given. Per the spec a ReadOp list compiles to a mapping
from name to marker, Default to the no-type marker and WithType to the typed
marker, and the request carries the discriminator read and the device name;
this matches the inline loop of NetcomClient::read_parameters. -/
def build_read_request (device : String) (parameters : List RdOp) : ReadRequestDto :=
  { r := "read", device := device, p := compile_rdops parameters }

/-- The name component of a WrOp. -/
def wrName : WrOp → String
  | .Default p _ => p
  | .WithType p _ _ => p

/-- The wire value shape a single WrOp compiles to: Default to the bare number
shape, WithType to the value-and-type shape. -/
def wrShape : WrOp → WrValueDto
  | .Default _ v => .Simple v
  | .WithType _ t v => .Detailed v t

/-- The value shape of the last WrOp in the list bearing the given name, the
last-write-wins reading of the spec. -/
def lastWrShape : List WrOp → String → Option WrValueDto
  | [], _ => none
  | op :: rest, name =>
    match lastWrShape rest name with
    | some v => some v
    | none => if wrName op = name then some (wrShape op) else none

/-- The state fields shared by NetcomClient (netcom.rs lines 42 to 48),
NetcomClientSync (netcom_client_sync.rs lines 18 to 24) and NetcomClientAsync
(netcom_client_async.rs lines 28 to 34): the three Rust structs differ only in
the concrete TCP stream type, modelled as an abstract held-or-not handle. -/
structure ClientState where
  hostname : String
  port : Nat
  stream : Option Unit
  auto_connect : Bool
  version : Option String
deriving DecidableEq

/-- Mirror of the new constructors of the three clients: no stream handle,
auto_connect enabled, no version. -/
def ClientState.new (hostname : String) (port : Nat) : ClientState :=
  { hostname := hostname, port := port, stream := none,
    auto_connect := true, version := none }

/-- Mirror of is_connected, identical in the three clients: a transport handle
is held. -/
def ClientState.is_connected (c : ClientState) : Bool :=
  c.stream.isSome

/-- One operation's view of the transport collaborators: the outcome
TcpStream::connect would produce, the outcome of the handshake write_all, the
outcome of the request write, and the successive results of stream.read, each
an io error code or the bytes obtained (an empty list models a zero-length
read). -/
structure OpEnv where
  tcpConnect : Except Nat Unit
  hsWrite : Except Nat Unit
  reqWrite : Except Nat Unit
  reads : List (Except Nat Bytes)

/-- The excluded serialization collaborators: every encoder stands for
serde_json::to_string on one request DTO, giving the bytes of the produced
string or a serde error; every decoder stands for parse_json::<T> (netcom.rs
lines 163 to 174), whose result is either the parsed DTO or one of the
Utf8Error and JsonError outcomes it reports. -/
structure Codec where
  encodeDeviceListReq : DeviceListRequestDto → Except Unit Bytes
  encodeClientInfoReq : ClientInfoRequestDto → Except Unit Bytes
  encodeReadReq : ReadRequestDto → Except Unit Bytes
  encodeWriteReq : WriteRequestDto → Except Unit Bytes
  decodeUpgrade : Bytes → Except NetcomError UpgradeResponseDto
  decodeDeviceList : Bytes → Except NetcomError DeviceListResponseDto
  decodeClientInfo : Bytes → Except NetcomError ClientInfoResponseDto
  decodeRead : Bytes → Except NetcomError ReadResponseDto
  decodeWrite : Bytes → Except NetcomError WriteResponseDto

/-- Result of one client call: the client state after the call, the transport
read results not yet consumed, the byte buffers written to the transport in
order, and the call's returned value or error. A call that never returns is
modelled by the surrounding Option being none. -/
structure Out (α : Type) where
  client : ClientState
  reads : List (Except Nat Bytes)
  written : List Bytes
  result : Except NetcomError α

/-- Outcome of one read_netstring loop: a complete frame payload with the
unconsumed read results, an error with the unconsumed read results, or starved,
meaning every modelled read result was consumed while the loop was still
waiting for a complete frame - the Rust loop would keep blocking on
stream.read. -/
inductive ReadLoop where
  | done (payload : Bytes) (rest : List (Except Nat Bytes))
  | failed (e : NetcomError) (rest : List (Except Nat Bytes))
  | starved (msg : Bytes)

/-- The bytes of the literal handshake line PROTO30 followed by newline. -/
def handshakeBytes : Bytes := [80, 82, 79, 84, 79, 51, 48, 10]

/-- The text the Rust debug format produces for a plain string without escaped
characters: the string between double quotes. -/
def rustDebug (s : String) : String := "\"" ++ s ++ "\""

/-- The parameter mapping contract of the NetcomSync trait (netcom.rs lines 151
to 155) for a record derived with NetcomMap: the ordered parameter-name
bindings and the current field values as parallel lists. -/
structure MappedRecord where
  bindings : List String
  fields : List Float

/-- Mirror of the generated to_rdops (netcom-macros lines 46 to 50 and 85 to
87): one RdOp Default per binding, in binding order. -/
def to_rdops (rec : MappedRecord) : List RdOp :=
  rec.bindings.map RdOp.Default

/-- Mirror of the generated to_wrops (netcom-macros lines 52 to 57 and 89 to
91): one WrOp Default carrying the current field value per binding, in binding
order. -/
def to_wrops (rec : MappedRecord) : List WrOp :=
  List.zipWith (fun p v => WrOp.Default p v) rec.bindings rec.fields

/-- Mirror of one generated apply_result entry (netcom-macros lines 59 to 65):
if the result map holds the parameter name with a present value, that value
replaces the field; a missing key or a null value leaves the field as it
was. -/
def applyField (result : List (String × Option Float)) (p : String) (x : Float) : Float :=
  match lookupName result p with
  | some (some vv) => vv
  | some none => x
  | none => x

/-- Mirror of the generated apply_result (netcom-macros lines 93 to 95): the
entries run one per binding in order, each touching only its own field. -/
def apply_result (rec : MappedRecord) (result : List (String × Option Float)) : MappedRecord :=
  { rec with fields := List.zipWith (applyField result) rec.bindings rec.fields }

namespace NetcomClient

/-- The accumulate-and-reparse loop of NetcomClient::read_netstring (netcom.rs
lines 194 to 206): append the next read result to the message buffer, reparse;
Complete returns the payload, Incomplete loops, Malformed and io errors
return. -/
def read_loop : List (Except Nat Bytes) → Bytes → ReadLoop
  | [], msg => .starved msg
  | r :: rest, msg =>
    match r with
    | .error e => .failed (.StreamError e) rest
    | .ok chunk =>
      match parse_netstring (msg ++ chunk) with
      | .ok s => .done s rest
      | .error .Incomplete => read_loop rest (msg ++ chunk)
      | .error .Malformed => .failed (.NetstringError .Malformed) rest

/-- Mirror of NetcomClient::read_netstring (netcom.rs lines 187 to 210): with
no stream held the call fails NotConnected, otherwise the loop runs on an
empty message buffer. -/
def read_netstring (c : ClientState) (reads : List (Except Nat Bytes)) : ReadLoop :=
  match c.stream with
  | some _ => read_loop reads []
  | none => .failed .NotConnected reads

/-- Mirror of NetcomClient::connect (netcom.rs lines 216 to 234): open the
transport, write the handshake line, store the stream handle, read one
netstring frame, decode it as the upgrade response and store the version.
Note the handle is stored before the frame read, so a failure from that point
on leaves the handle stored. -/
def connect (c : ClientState) (env : OpEnv) (cd : Codec) : Option (Out Unit) :=
  match env.tcpConnect with
  | .error e => some ⟨c, env.reads, [], .error (.StreamError e)⟩
  | .ok _ =>
    match env.hsWrite with
    | .error e => some ⟨c, env.reads, [], .error (.StreamError e)⟩
    | .ok _ =>
      let c₁ : ClientState := { c with stream := some () }
      match read_netstring c₁ env.reads with
      | .starved _ => none
      | .failed e rest => some ⟨c₁, rest, [handshakeBytes], .error e⟩
      | .done json rest =>
        match cd.decodeUpgrade json with
        | .error e => some ⟨c₁, rest, [handshakeBytes], .error e⟩
        | .ok resp =>
          some ⟨{ c₁ with version := some resp.version }, rest, [handshakeBytes], .ok ()⟩

/-- Mirror of NetcomClient::prepare (netcom.rs lines 240 to 245): connect only
when auto_connect is set and no stream is held. -/
def prepare (c : ClientState) (env : OpEnv) (cd : Codec) : Option (Out Unit) :=
  if c.auto_connect = true ∧ c.stream = none then connect c env cd
  else some ⟨c, env.reads, [], .ok ()⟩

/-- Mirror of NetcomClient::send_buf (netcom.rs lines 247 to 256): prepare,
then write the buffer on the held stream, NotConnected when none is held. -/
def send_buf (c : ClientState) (env : OpEnv) (cd : Codec) (buf : Bytes) : Option (Out Unit) :=
  match prepare c env cd with
  | none => none
  | some o =>
    match o.result with
    | .error e => some ⟨o.client, o.reads, o.written, .error e⟩
    | .ok _ =>
      match o.client.stream with
      | some _ =>
        match env.reqWrite with
        | .error e => some ⟨o.client, o.reads, o.written, .error (.StreamError e)⟩
        | .ok _ => some ⟨o.client, o.reads, o.written ++ [buf], .ok ()⟩
      | none => some ⟨o.client, o.reads, o.written, .error .NotConnected⟩

/-- Mirror of NetcomClient::send_request (netcom.rs lines 258 to 266): frame
the serialized request as a netstring and send it, or report the serde failure
as JsonError. -/
def send_request (c : ClientState) (env : OpEnv) (cd : Codec)
    (encoded : Except Unit Bytes) : Option (Out Unit) :=
  match encoded with
  | .ok s => send_buf c env cd (to_netstring s)
  | .error _ => some ⟨c, env.reads, [], .error .JsonError⟩

/-- Mirror of NetcomClient::wait_for_response (netcom.rs lines 268 to 276):
read one frame and decode its payload. -/
def wait_for_response {α : Type} (c : ClientState) (reads : List (Except Nat Bytes))
    (decode : Bytes → Except NetcomError α) :
    Option (Except NetcomError α × List (Except Nat Bytes)) :=
  match read_netstring c reads with
  | .starved _ => none
  | .failed e rest => some (.error e, rest)
  | .done s rest => some (decode s, rest)

/-- Mirror of NetcomClient::get_device_list (netcom.rs lines 278 to 296). -/
def get_device_list (c : ClientState) (env : OpEnv) (cd : Codec) :
    Option (Out (List DeviceDto)) :=
  match send_request c env cd (cd.encodeDeviceListReq { r := "device-list" }) with
  | none => none
  | some o =>
    match o.result with
    | .error e => some ⟨o.client, o.reads, o.written, .error e⟩
    | .ok _ =>
      match wait_for_response o.client o.reads cd.decodeDeviceList with
      | none => none
      | some (.error e, rest) => some ⟨o.client, rest, o.written, .error e⟩
      | some (.ok r, rest) =>
        if r.r = "device-list" then some ⟨o.client, rest, o.written, .ok r.devices⟩
        else
          some ⟨o.client, rest, o.written,
            .error (.ResponseError
              ("Expected response type device-list, got " ++ rustDebug r.r))⟩

/-- Mirror of NetcomClient::push_client_info (netcom.rs lines 298 to 316). The
mismatch branch carries the source's literal message, whose expected tag reads
device-list although the operation expects client-info. -/
def push_client_info (c : ClientState) (env : OpEnv) (cd : Codec) (name : String) :
    Option (Out Unit) :=
  match send_request c env cd (cd.encodeClientInfoReq { r := "client-info", name := name }) with
  | none => none
  | some o =>
    match o.result with
    | .error e => some ⟨o.client, o.reads, o.written, .error e⟩
    | .ok _ =>
      match wait_for_response o.client o.reads cd.decodeClientInfo with
      | none => none
      | some (.error e, rest) => some ⟨o.client, rest, o.written, .error e⟩
      | some (.ok r, rest) =>
        if r.r = "client-info" then some ⟨o.client, rest, o.written, .ok ()⟩
        else
          some ⟨o.client, rest, o.written,
            .error (.ResponseError
              ("Expected response type device-list, got " ++ rustDebug r.r))⟩

/-- Mirror of NetcomClient::read_parameters (netcom.rs lines 318 to 355): the
op list compiles inline to the request map, the request is sent, the response
must carry the read discriminator. -/
def read_parameters (c : ClientState) (env : OpEnv) (cd : Codec) (device : String)
    (parameters : List RdOp) : Option (Out (List (String × Option Float))) :=
  match send_request c env cd
      (cd.encodeReadReq { r := "read", device := device, p := compile_rdops parameters }) with
  | none => none
  | some o =>
    match o.result with
    | .error e => some ⟨o.client, o.reads, o.written, .error e⟩
    | .ok _ =>
      match wait_for_response o.client o.reads cd.decodeRead with
      | none => none
      | some (.error e, rest) => some ⟨o.client, rest, o.written, .error e⟩
      | some (.ok r, rest) =>
        if r.r = "read" then some ⟨o.client, rest, o.written, .ok r.result⟩
        else
          some ⟨o.client, rest, o.written,
            .error (.ResponseError
              ("Expected response type 'read', got " ++ rustDebug r.r))⟩

/-- Mirror of NetcomClient::write_parameters (netcom.rs lines 357 to 390). -/
def write_parameters (c : ClientState) (env : OpEnv) (cd : Codec) (device : String)
    (parameters : List WrOp) : Option (Out (List (String × Option Float))) :=
  match send_request c env cd
      (cd.encodeWriteReq { r := "write", device := device, p := compile_wrops parameters }) with
  | none => none
  | some o =>
    match o.result with
    | .error e => some ⟨o.client, o.reads, o.written, .error e⟩
    | .ok _ =>
      match wait_for_response o.client o.reads cd.decodeWrite with
      | none => none
      | some (.error e, rest) => some ⟨o.client, rest, o.written, .error e⟩
      | some (.ok r, rest) =>
        if r.r = "write" then some ⟨o.client, rest, o.written, .ok r.result⟩
        else
          some ⟨o.client, rest, o.written,
            .error (.ResponseError
              ("Expected response type 'write', got " ++ rustDebug r.r))⟩

/-- Mirror of NetcomClient::read_struct (netcom.rs lines 392 to 405): build the
read ops from the record, read, and only on success absorb the result map into
the record; the error path leaves the record untouched. -/
def read_struct (c : ClientState) (env : OpEnv) (cd : Codec) (device : String)
    (params : MappedRecord) :
    Option (Out (List (String × Option Float)) × MappedRecord) :=
  match read_parameters c env cd device (to_rdops params) with
  | none => none
  | some o =>
    match o.result with
    | .ok res => some (o, apply_result params res)
    | .error _ => some (o, params)

/-- Mirror of NetcomClient::write_struct (netcom.rs lines 407 to 418): build
the write ops from the record and write them; the record is only read. -/
def write_struct (c : ClientState) (env : OpEnv) (cd : Codec) (device : String)
    (params : MappedRecord) :
    Option (Out (List (String × Option Float)) × MappedRecord) :=
  match write_parameters c env cd device (to_wrops params) with
  | none => none
  | some o => some (o, params)

end NetcomClient

namespace NetcomClientSync

/-- The accumulate-and-reparse loop of NetcomClientSync::read_netstring
(netcom_client_sync.rs lines 65 to 77). -/
def read_loop : List (Except Nat Bytes) → Bytes → ReadLoop
  | [], msg => .starved msg
  | r :: rest, msg =>
    match r with
    | .error e => .failed (.StreamError e) rest
    | .ok chunk =>
      match parse_netstring (msg ++ chunk) with
      | .ok s => .done s rest
      | .error .Incomplete => read_loop rest (msg ++ chunk)
      | .error .Malformed => .failed (.NetstringError .Malformed) rest

/-- Mirror of NetcomClientSync::read_netstring (netcom_client_sync.rs lines 58
to 81). -/
def read_netstring (c : ClientState) (reads : List (Except Nat Bytes)) : ReadLoop :=
  match c.stream with
  | some _ => read_loop reads []
  | none => .failed .NotConnected reads

/-- Mirror of NetcomClientSync::connect (netcom_client_sync.rs lines 37 to 56):
identical step order to NetcomClient::connect, the handle is stored before the
version frame is read. -/
def connect (c : ClientState) (env : OpEnv) (cd : Codec) : Option (Out Unit) :=
  match env.tcpConnect with
  | .error e => some ⟨c, env.reads, [], .error (.StreamError e)⟩
  | .ok _ =>
    match env.hsWrite with
    | .error e => some ⟨c, env.reads, [], .error (.StreamError e)⟩
    | .ok _ =>
      let c₁ : ClientState := { c with stream := some () }
      match read_netstring c₁ env.reads with
      | .starved _ => none
      | .failed e rest => some ⟨c₁, rest, [handshakeBytes], .error e⟩
      | .done json rest =>
        match cd.decodeUpgrade json with
        | .error e => some ⟨c₁, rest, [handshakeBytes], .error e⟩
        | .ok resp =>
          some ⟨{ c₁ with version := some resp.version }, rest, [handshakeBytes], .ok ()⟩

/-- Mirror of NetcomClientSync::prepare (netcom_client_sync.rs lines 83 to
88). -/
def prepare (c : ClientState) (env : OpEnv) (cd : Codec) : Option (Out Unit) :=
  if c.auto_connect = true ∧ c.stream = none then connect c env cd
  else some ⟨c, env.reads, [], .ok ()⟩

/-- Mirror of NetcomClientSync::send_buf (netcom_client_sync.rs lines 98 to
107). -/
def send_buf (c : ClientState) (env : OpEnv) (cd : Codec) (buf : Bytes) : Option (Out Unit) :=
  match prepare c env cd with
  | none => none
  | some o =>
    match o.result with
    | .error e => some ⟨o.client, o.reads, o.written, .error e⟩
    | .ok _ =>
      match o.client.stream with
      | some _ =>
        match env.reqWrite with
        | .error e => some ⟨o.client, o.reads, o.written, .error (.StreamError e)⟩
        | .ok _ => some ⟨o.client, o.reads, o.written ++ [buf], .ok ()⟩
      | none => some ⟨o.client, o.reads, o.written, .error .NotConnected⟩

/-- Mirror of NetcomClientSync::send_request (netcom_client_sync.rs lines 109
to 117). -/
def send_request (c : ClientState) (env : OpEnv) (cd : Codec)
    (encoded : Except Unit Bytes) : Option (Out Unit) :=
  match encoded with
  | .ok s => send_buf c env cd (to_netstring s)
  | .error _ => some ⟨c, env.reads, [], .error .JsonError⟩

/-- Mirror of NetcomClientSync::wait_for_response (netcom_client_sync.rs lines
119 to 127). -/
def wait_for_response {α : Type} (c : ClientState) (reads : List (Except Nat Bytes))
    (decode : Bytes → Except NetcomError α) :
    Option (Except NetcomError α × List (Except Nat Bytes)) :=
  match read_netstring c reads with
  | .starved _ => none
  | .failed e rest => some (.error e, rest)
  | .done s rest => some (decode s, rest)

/-- Mirror of NetcomClientSync::get_device_list (netcom_client_sync.rs lines
129 to 147). -/
def get_device_list (c : ClientState) (env : OpEnv) (cd : Codec) :
    Option (Out (List DeviceDto)) :=
  match send_request c env cd (cd.encodeDeviceListReq { r := "device-list" }) with
  | none => none
  | some o =>
    match o.result with
    | .error e => some ⟨o.client, o.reads, o.written, .error e⟩
    | .ok _ =>
      match wait_for_response o.client o.reads cd.decodeDeviceList with
      | none => none
      | some (.error e, rest) => some ⟨o.client, rest, o.written, .error e⟩
      | some (.ok r, rest) =>
        if r.r = "device-list" then some ⟨o.client, rest, o.written, .ok r.devices⟩
        else
          some ⟨o.client, rest, o.written,
            .error (.ResponseError
              ("Expected response type device-list, got " ++ rustDebug r.r))⟩

/-- Mirror of NetcomClientSync::push_client_info (netcom_client_sync.rs lines
149 to 167), with the source's literal mismatch message naming device-list. -/
def push_client_info (c : ClientState) (env : OpEnv) (cd : Codec) (name : String) :
    Option (Out Unit) :=
  match send_request c env cd (cd.encodeClientInfoReq { r := "client-info", name := name }) with
  | none => none
  | some o =>
    match o.result with
    | .error e => some ⟨o.client, o.reads, o.written, .error e⟩
    | .ok _ =>
      match wait_for_response o.client o.reads cd.decodeClientInfo with
      | none => none
      | some (.error e, rest) => some ⟨o.client, rest, o.written, .error e⟩
      | some (.ok r, rest) =>
        if r.r = "client-info" then some ⟨o.client, rest, o.written, .ok ()⟩
        else
          some ⟨o.client, rest, o.written,
            .error (.ResponseError
              ("Expected response type device-list, got " ++ rustDebug r.r))⟩

/-- Mirror of NetcomClientSync::read_parameters (netcom_client_sync.rs lines
169 to 187): the request is built by build_read_request. -/
def read_parameters (c : ClientState) (env : OpEnv) (cd : Codec) (device : String)
    (parameters : List RdOp) : Option (Out (List (String × Option Float))) :=
  match send_request c env cd (cd.encodeReadReq (build_read_request device parameters)) with
  | none => none
  | some o =>
    match o.result with
    | .error e => some ⟨o.client, o.reads, o.written, .error e⟩
    | .ok _ =>
      match wait_for_response o.client o.reads cd.decodeRead with
      | none => none
      | some (.error e, rest) => some ⟨o.client, rest, o.written, .error e⟩
      | some (.ok r, rest) =>
        if r.r = "read" then some ⟨o.client, rest, o.written, .ok r.result⟩
        else
          some ⟨o.client, rest, o.written,
            .error (.ResponseError
              ("Expected response type 'read', got " ++ rustDebug r.r))⟩

/-- Mirror of NetcomClientSync::write_parameters (netcom_client_sync.rs lines
189 to 222). -/
def write_parameters (c : ClientState) (env : OpEnv) (cd : Codec) (device : String)
    (parameters : List WrOp) : Option (Out (List (String × Option Float))) :=
  match send_request c env cd
      (cd.encodeWriteReq { r := "write", device := device, p := compile_wrops parameters }) with
  | none => none
  | some o =>
    match o.result with
    | .error e => some ⟨o.client, o.reads, o.written, .error e⟩
    | .ok _ =>
      match wait_for_response o.client o.reads cd.decodeWrite with
      | none => none
      | some (.error e, rest) => some ⟨o.client, rest, o.written, .error e⟩
      | some (.ok r, rest) =>
        if r.r = "write" then some ⟨o.client, rest, o.written, .ok r.result⟩
        else
          some ⟨o.client, rest, o.written,
            .error (.ResponseError
              ("Expected response type 'write', got " ++ rustDebug r.r))⟩

/-- Mirror of NetcomClientSync::read_struct (netcom_client_sync.rs lines 224 to
237). -/
def read_struct (c : ClientState) (env : OpEnv) (cd : Codec) (device : String)
    (params : MappedRecord) :
    Option (Out (List (String × Option Float)) × MappedRecord) :=
  match read_parameters c env cd device (to_rdops params) with
  | none => none
  | some o =>
    match o.result with
    | .ok res => some (o, apply_result params res)
    | .error _ => some (o, params)

/-- Mirror of NetcomClientSync::write_struct (netcom_client_sync.rs lines 239
to 249). -/
def write_struct (c : ClientState) (env : OpEnv) (cd : Codec) (device : String)
    (params : MappedRecord) :
    Option (Out (List (String × Option Float)) × MappedRecord) :=
  match write_parameters c env cd device (to_wrops params) with
  | none => none
  | some o => some (o, params)

end NetcomClientSync

namespace NetcomClientAsync

/-- The accumulate-and-reparse loop of NetcomClientAsync::read_netstring
(netcom_client_async.rs lines 77 to 89); the await on stream.read is the
suspension point and does not alter the data flow. -/
def read_loop : List (Except Nat Bytes) → Bytes → ReadLoop
  | [], msg => .starved msg
  | r :: rest, msg =>
    match r with
    | .error e => .failed (.StreamError e) rest
    | .ok chunk =>
      match parse_netstring (msg ++ chunk) with
      | .ok s => .done s rest
      | .error .Incomplete => read_loop rest (msg ++ chunk)
      | .error .Malformed => .failed (.NetstringError .Malformed) rest

/-- Mirror of NetcomClientAsync::read_netstring (netcom_client_async.rs lines
70 to 93). -/
def read_netstring (c : ClientState) (reads : List (Except Nat Bytes)) : ReadLoop :=
  match c.stream with
  | some _ => read_loop reads []
  | none => .failed .NotConnected reads

/-- Mirror of NetcomClientAsync::connect (netcom_client_async.rs lines 47 to
68): identical step order to the blocking clients, with awaits on the transport
open and the handshake write. -/
def connect (c : ClientState) (env : OpEnv) (cd : Codec) : Option (Out Unit) :=
  match env.tcpConnect with
  | .error e => some ⟨c, env.reads, [], .error (.StreamError e)⟩
  | .ok _ =>
    match env.hsWrite with
    | .error e => some ⟨c, env.reads, [], .error (.StreamError e)⟩
    | .ok _ =>
      let c₁ : ClientState := { c with stream := some () }
      match read_netstring c₁ env.reads with
      | .starved _ => none
      | .failed e rest => some ⟨c₁, rest, [handshakeBytes], .error e⟩
      | .done json rest =>
        match cd.decodeUpgrade json with
        | .error e => some ⟨c₁, rest, [handshakeBytes], .error e⟩
        | .ok resp =>
          some ⟨{ c₁ with version := some resp.version }, rest, [handshakeBytes], .ok ()⟩

/-- Mirror of NetcomClientAsync::prepare (netcom_client_async.rs lines 95 to
100). -/
def prepare (c : ClientState) (env : OpEnv) (cd : Codec) : Option (Out Unit) :=
  if c.auto_connect = true ∧ c.stream = none then connect c env cd
  else some ⟨c, env.reads, [], .ok ()⟩

/-- Mirror of NetcomClientAsync::send_buf (netcom_client_async.rs lines 110 to
121). -/
def send_buf (c : ClientState) (env : OpEnv) (cd : Codec) (buf : Bytes) : Option (Out Unit) :=
  match prepare c env cd with
  | none => none
  | some o =>
    match o.result with
    | .error e => some ⟨o.client, o.reads, o.written, .error e⟩
    | .ok _ =>
      match o.client.stream with
      | some _ =>
        match env.reqWrite with
        | .error e => some ⟨o.client, o.reads, o.written, .error (.StreamError e)⟩
        | .ok _ => some ⟨o.client, o.reads, o.written ++ [buf], .ok ()⟩
      | none => some ⟨o.client, o.reads, o.written, .error .NotConnected⟩

/-- Mirror of NetcomClientAsync::send_request (netcom_client_async.rs lines 123
to 131). -/
def send_request (c : ClientState) (env : OpEnv) (cd : Codec)
    (encoded : Except Unit Bytes) : Option (Out Unit) :=
  match encoded with
  | .ok s => send_buf c env cd (to_netstring s)
  | .error _ => some ⟨c, env.reads, [], .error .JsonError⟩

/-- Mirror of NetcomClientAsync::wait_for_response (netcom_client_async.rs
lines 133 to 141). -/
def wait_for_response {α : Type} (c : ClientState) (reads : List (Except Nat Bytes))
    (decode : Bytes → Except NetcomError α) :
    Option (Except NetcomError α × List (Except Nat Bytes)) :=
  match read_netstring c reads with
  | .starved _ => none
  | .failed e rest => some (.error e, rest)
  | .done s rest => some (decode s, rest)

/-- Mirror of NetcomClientAsync::get_device_list (netcom_client_async.rs lines
143 to 161). -/
def get_device_list (c : ClientState) (env : OpEnv) (cd : Codec) :
    Option (Out (List DeviceDto)) :=
  match send_request c env cd (cd.encodeDeviceListReq { r := "device-list" }) with
  | none => none
  | some o =>
    match o.result with
    | .error e => some ⟨o.client, o.reads, o.written, .error e⟩
    | .ok _ =>
      match wait_for_response o.client o.reads cd.decodeDeviceList with
      | none => none
      | some (.error e, rest) => some ⟨o.client, rest, o.written, .error e⟩
      | some (.ok r, rest) =>
        if r.r = "device-list" then some ⟨o.client, rest, o.written, .ok r.devices⟩
        else
          some ⟨o.client, rest, o.written,
            .error (.ResponseError
              ("Expected response type device-list, got " ++ rustDebug r.r))⟩

/-- Mirror of NetcomClientAsync::push_client_info (netcom_client_async.rs lines
163 to 181), with the source's literal mismatch message naming device-list. -/
def push_client_info (c : ClientState) (env : OpEnv) (cd : Codec) (name : String) :
    Option (Out Unit) :=
  match send_request c env cd (cd.encodeClientInfoReq { r := "client-info", name := name }) with
  | none => none
  | some o =>
    match o.result with
    | .error e => some ⟨o.client, o.reads, o.written, .error e⟩
    | .ok _ =>
      match wait_for_response o.client o.reads cd.decodeClientInfo with
      | none => none
      | some (.error e, rest) => some ⟨o.client, rest, o.written, .error e⟩
      | some (.ok r, rest) =>
        if r.r = "client-info" then some ⟨o.client, rest, o.written, .ok ()⟩
        else
          some ⟨o.client, rest, o.written,
            .error (.ResponseError
              ("Expected response type device-list, got " ++ rustDebug r.r))⟩

/-- Mirror of NetcomClientAsync::read_parameters (netcom_client_async.rs lines
183 to 201). -/
def read_parameters (c : ClientState) (env : OpEnv) (cd : Codec) (device : String)
    (parameters : List RdOp) : Option (Out (List (String × Option Float))) :=
  match send_request c env cd (cd.encodeReadReq (build_read_request device parameters)) with
  | none => none
  | some o =>
    match o.result with
    | .error e => some ⟨o.client, o.reads, o.written, .error e⟩
    | .ok _ =>
      match wait_for_response o.client o.reads cd.decodeRead with
      | none => none
      | some (.error e, rest) => some ⟨o.client, rest, o.written, .error e⟩
      | some (.ok r, rest) =>
        if r.r = "read" then some ⟨o.client, rest, o.written, .ok r.result⟩
        else
          some ⟨o.client, rest, o.written,
            .error (.ResponseError
              ("Expected response type 'read', got " ++ rustDebug r.r))⟩

/-- Mirror of NetcomClientAsync::write_parameters (netcom_client_async.rs lines
203 to 236). -/
def write_parameters (c : ClientState) (env : OpEnv) (cd : Codec) (device : String)
    (parameters : List WrOp) : Option (Out (List (String × Option Float))) :=
  match send_request c env cd
      (cd.encodeWriteReq { r := "write", device := device, p := compile_wrops parameters }) with
  | none => none
  | some o =>
    match o.result with
    | .error e => some ⟨o.client, o.reads, o.written, .error e⟩
    | .ok _ =>
      match wait_for_response o.client o.reads cd.decodeWrite with
      | none => none
      | some (.error e, rest) => some ⟨o.client, rest, o.written, .error e⟩
      | some (.ok r, rest) =>
        if r.r = "write" then some ⟨o.client, rest, o.written, .ok r.result⟩
        else
          some ⟨o.client, rest, o.written,
            .error (.ResponseError
              ("Expected response type 'write', got " ++ rustDebug r.r))⟩

/-- Mirror of NetcomClientAsync::read_struct (netcom_client_async.rs lines 238
to 251). -/
def read_struct (c : ClientState) (env : OpEnv) (cd : Codec) (device : String)
    (params : MappedRecord) :
    Option (Out (List (String × Option Float)) × MappedRecord) :=
  match read_parameters c env cd device (to_rdops params) with
  | none => none
  | some o =>
    match o.result with
    | .ok res => some (o, apply_result params res)
    | .error _ => some (o, params)

/-- Mirror of NetcomClientAsync::write_struct (netcom_client_async.rs lines 253
to 263). -/
def write_struct (c : ClientState) (env : OpEnv) (cd : Codec) (device : String)
    (params : MappedRecord) :
    Option (Out (List (String × Option Float)) × MappedRecord) :=
  match write_parameters c env cd device (to_wrops params) with
  | none => none
  | some o => some (o, params)

end NetcomClientAsync

/-- A codec whose encoders produce empty byte strings and whose decoders always
fail; concrete scenarios override the fields they exercise. -/
def trivialCodec : Codec :=
  { encodeDeviceListReq := fun _ => .ok []
    encodeClientInfoReq := fun _ => .ok []
    encodeReadReq := fun _ => .ok []
    encodeWriteReq := fun _ => .ok []
    decodeUpgrade := fun _ => .error .JsonError
    decodeDeviceList := fun _ => .error .JsonError
    decodeClientInfo := fun _ => .error .JsonError
    decodeRead := fun _ => .error .JsonError
    decodeWrite := fun _ => .error .JsonError }

/-- A freshly constructed, disconnected client. -/
def cexClient : ClientState := ClientState.new "localhost" 7878

/-- A transport whose open and writes succeed and whose single read delivers
the malformed frame of bytes 1 X colon. -/
def cexEnv : OpEnv :=
  { tcpConnect := .ok (), hsWrite := .ok (), reqWrite := .ok (),
    reads := [.ok [49, 88, 58]] }

/-- A transport that fails at open with io error code 7. -/
def earlyFailEnv : OpEnv :=
  { tcpConnect := .error 7, hsWrite := .ok (), reqWrite := .ok (), reads := [] }

/-- The call result of connect on cexClient over earlyFailEnv. -/
def earlyFailOut : Out Unit :=
  { client := cexClient, reads := [], written := [], result := .error (.StreamError 7) }

/-- A client already holding a transport handle and a version. -/
def connectedClient : ClientState :=
  { hostname := "h", port := 7878, stream := some (), auto_connect := true,
    version := some "3.0" }

/-- A transport whose writes succeed and whose single read delivers the
complete empty frame, bytes 0 colon comma. -/
def respEnv : OpEnv :=
  { tcpConnect := .ok (), hsWrite := .ok (), reqWrite := .ok (),
    reads := [.ok [48, 58, 44]] }

/-- A codec whose client-info decoder yields a response tagged write. -/
def clientInfoMismatchCodec : Codec :=
  { trivialCodec with decodeClientInfo := fun _ => .ok { r := "write" } }

/-- A codec whose read decoder yields a response tagged write with an empty
result map. -/
def readMismatchCodec : Codec :=
  { trivialCodec with decodeRead := fun _ => .ok { r := "write", result := [] } }

/-- The call result of read_parameters on connectedClient over respEnv and
readMismatchCodec: the request frame went out and the mismatched response
produced the protocol error, leaving the client as it was. -/
def mismatchReadOut : Out (List (String × Option Float)) :=
  { client := connectedClient, reads := [], written := [to_netstring []],
    result := .error (.ResponseError
      ("Expected response type 'read', got " ++ rustDebug "write")) }

/-- A record with two bound fields. -/
def sampleRecord : MappedRecord :=
  { bindings := ["a", "b"], fields := [1.5, 2.5] }

/-- A result map holding a present value for the first binding and nothing for
the second. -/
def sampleResult : List (String × Option Float) := [("a", some 9.0)]

end Netcom

namespace Netcom

/-- Every byte that decDigits produces is an ASCII digit. -/
theorem decDigits_isDigit (n : Nat) : ∀ c ∈ decDigits n, 48 ≤ c ∧ c ≤ 57 := by
  induction n using Nat.strong_induction_on with
  | _ n ih =>
    by_cases h : n < 10
    · rw [decDigits, if_pos h]
      intro c hc
      simp only [List.mem_singleton] at hc
      omega
    · rw [decDigits, if_neg h]
      intro c hc
      rcases List.mem_append.mp hc with hc | hc
      · exact ih (n / 10) (Nat.div_lt_self (by omega) (by omega)) c hc
      · simp only [List.mem_singleton] at hc
        have : n % 10 < 10 := Nat.mod_lt _ (by omega)
        omega

/-- decDigits never produces the empty list. -/
theorem decDigits_ne_nil (n : Nat) : decDigits n ≠ [] := by
  by_cases h : n < 10
  · rw [decDigits, if_pos h]; simp
  · rw [decDigits, if_neg h]; simp

/-- Scanning a run of digit bytes followed by a colon succeeds, returning the
position after the colon and the folded decimal value. -/
theorem scanLen_digits (ds : Bytes) (hd : ∀ c ∈ ds, 48 ≤ c ∧ c ≤ 57) :
    ∀ (rest : Bytes) (i acc : Nat),
      scanLen (ds ++ 58 :: rest) i acc =
        .ok (i + ds.length + 1, ds.foldl (fun a c => a * 10 + (c - 48)) acc) := by
  induction ds with
  | nil =>
    intro rest i acc
    simp [scanLen]
  | cons c ds ih =>
    intro rest i acc
    have hc : 48 ≤ c ∧ c ≤ 57 := hd c (List.mem_cons_self c ds)
    have hds : ∀ b ∈ ds, 48 ≤ b ∧ b ≤ 57 := fun b hb => hd b (List.mem_cons_of_mem c hb)
    have harith : i + (c :: ds).length + 1 = i + 1 + ds.length + 1 := by
      simp only [List.length_cons]; omega
    simp only [List.cons_append, scanLen, if_pos hc, List.append_eq]
    rw [ih hds rest (i + 1) (acc * 10 + (c - 48))]
    rw [harith, List.foldl_cons]

/-- Folding the decimal digits of n onto an accumulator multiplies the
accumulator by the right power of ten and adds n. -/
theorem foldl_decDigits (n : Nat) :
    ∀ acc : Nat,
      (decDigits n).foldl (fun a c => a * 10 + (c - 48)) acc =
        acc * 10 ^ (decDigits n).length + n := by
  induction n using Nat.strong_induction_on with
  | _ n ih =>
    intro acc
    by_cases h : n < 10
    · rw [decDigits, if_pos h]
      simp only [List.foldl_cons, List.foldl_nil, List.length_singleton]
      omega
    · rw [decDigits, if_neg h]
      rw [List.foldl_append]
      rw [ih (n / 10) (Nat.div_lt_self (by omega) (by omega)) acc]
      simp only [List.foldl_cons, List.foldl_nil, List.length_append,
        List.length_cons, List.length_nil]
      have hx : (10 : Nat) ^ ((decDigits (n / 10)).length + (0 + 1)) =
          10 ^ (decDigits (n / 10)).length * 10 := by
        rw [Nat.zero_add, pow_succ]
      rw [hx, ← mul_assoc]
      generalize acc * 10 ^ (decDigits (n / 10)).length = y
      omega

/-- C4: round trip of the netstring codec. For every byte payload p, decoding
the encoding of p yields Complete with exactly p: parse_netstring applied to
to_netstring p returns Ok p, where to_netstring p is the ASCII decimal of the
length of p, then a colon, then p, then a comma. -/
theorem parse_netstring_roundtrip (p : Bytes) :
    parse_netstring (to_netstring p) = .ok p := by
  have hL : 1 ≤ (decDigits p.length).length :=
    List.length_pos.mpr (decDigits_ne_nil p.length)
  have hshape : to_netstring p = decDigits p.length ++ 58 :: (p ++ [44]) := by
    simp [to_netstring]
  have hscan :
      scanLen (decDigits p.length ++ 58 :: (p ++ [44])) 0 0 =
        .ok ((decDigits p.length).length + 1, p.length) := by
    rw [scanLen_digits (decDigits p.length) (decDigits_isDigit p.length)]
    rw [foldl_decDigits p.length 0]
    simp
  have hlen2 : (decDigits p.length ++ 58 :: (p ++ [44])).length =
      (decDigits p.length).length + 1 + p.length + 1 := by
    simp only [List.length_append, List.length_cons, List.length_nil]
    omega
  rw [parse_netstring, hshape]
  rw [if_neg (by rw [hlen2]; omega)]
  simp only [hscan]
  rw [if_neg (by rw [hlen2]; omega)]
  rw [if_neg (by rw [hlen2]; omega)]
  have hget : (decDigits p.length ++ 58 :: (p ++ [44])).getD
      ((decDigits p.length).length + 1 + p.length) 0 = 44 := by
    have harr : decDigits p.length ++ 58 :: (p ++ [44]) =
        (decDigits p.length ++ 58 :: p) ++ [44] := by simp
    have hplen : (decDigits p.length ++ 58 :: p).length =
        (decDigits p.length).length + 1 + p.length := by
      simp only [List.length_append, List.length_cons]
      omega
    rw [harr, ← hplen, List.getD_eq_getElem?_getD, List.getElem?_concat_length]
    rfl
  rw [if_neg (by rw [hget]; simp)]
  have hdrop : (decDigits p.length ++ 58 :: (p ++ [44])).drop
      ((decDigits p.length).length + 1) = p ++ [44] := by
    have harr : decDigits p.length ++ 58 :: (p ++ [44]) =
        (decDigits p.length ++ [58]) ++ (p ++ [44]) := by simp
    have hplen : (decDigits p.length ++ [58]).length =
        (decDigits p.length).length + 1 := by simp
    rw [harr, ← hplen, List.drop_left]
  rw [hdrop]
  rw [List.take_left]

/-- C2 (code bug witness): the parser accepts a buffer whose length prefix has
zero digits. On the buffer of bytes for colon comma x it returns Complete with
the empty payload, although the spec and the test named
should_require_one_or_more_digits_before_colon demand Malformed for an empty
digit run. -/
theorem parse_netstring_zero_digit_complete :
    parse_netstring [58, 44, 120] = .ok [] := rfl

/-- C3 (counterexample): the buffer of bytes for X colon contains a non-digit
byte (88) before its colon, yet the decoder returns Incomplete because the
buffer is shorter than 3 bytes, not Malformed as the claim states for every
buffer length. -/
theorem parse_netstring_short_nondigit_incomplete :
    parse_netstring [88, 58] = .error .Incomplete ∧
    parse_netstring [88, 58] ≠ .error .Malformed := by
  refine ⟨rfl, fun h => ?_⟩
  rw [show parse_netstring [88, 58] = .error .Incomplete from rfl] at h
  exact NetstringError.noConfusion (Except.error.inj h)

/-- Scanning reports Malformed whenever some byte that is neither a digit nor
preceded by a colon occurs: if position j holds a non-digit byte and no byte up
to and including position j is a colon, the scan fails Malformed. -/
theorem scanLen_malformed (buf : Bytes) :
    ∀ (j c i acc : Nat),
      buf.get? j = some c →
      ¬(48 ≤ c ∧ c ≤ 57) →
      (∀ b ∈ buf.take (j + 1), b ≠ 58) →
      scanLen buf i acc = .error .Malformed := by
  induction buf with
  | nil =>
    intro j c i acc hj _ _
    simp at hj
  | cons b rest ih =>
    intro j c i acc hj hc hcolon
    by_cases hb : 48 ≤ b ∧ b ≤ 57
    · cases j with
      | zero =>
        simp only [List.get?_cons_zero, Option.some.injEq] at hj
        exact absurd (hj ▸ hb) hc
      | succ j' =>
        simp only [scanLen, if_pos hb]
        refine ih j' c (i + 1) (acc * 10 + (b - 48)) ?_ hc ?_
        · simpa using hj
        · intro x hx
          exact hcolon x (by simpa using List.mem_cons_of_mem b hx)
    · have hb58 : b ≠ 58 := by
        refine hcolon b ?_
        simp [List.take_cons]
      simp [scanLen, hb, hb58]

/-- C3 (amended): for every buffer of length at least 3 that contains, before
any colon byte, a byte that is not an ASCII digit, the decode returns Malformed
and not Incomplete. Buffers shorter than 3 bytes return Incomplete instead,
which is what the counterexample forces. -/
theorem parse_netstring_nondigit_malformed (buf : Bytes) (j c : Nat)
    (hlen : 3 ≤ buf.length)
    (hj : buf.get? j = some c)
    (hc : ¬(48 ≤ c ∧ c ≤ 57))
    (hcolon : ∀ b ∈ buf.take (j + 1), b ≠ 58) :
    parse_netstring buf = .error .Malformed := by
  rw [parse_netstring, if_neg (by omega)]
  rw [scanLen_malformed buf j c 0 0 hj hc hcolon]

/-- C3 (witness): the amended theorem applied to the 3-byte buffer of bytes
for 1 X colon, whose second byte 88 is not a digit and stands before the
colon. -/
theorem parse_netstring_nondigit_malformed_witness :
    parse_netstring [49, 88, 58] = .error .Malformed :=
  parse_netstring_nondigit_malformed [49, 88, 58] 1 88 (by decide) (by decide)
    (by decide) (by decide)

end Netcom

namespace Netcom

/-- Looking a key up after a hashMapInsert sees the inserted value exactly at
the inserted key and is otherwise unchanged. -/
theorem lookupName_hashMapInsert {α : Type} (m : List (String × α)) (k k' : String) (v : α) :
    lookupName (hashMapInsert m k v) k' = if k = k' then some v else lookupName m k' := by
  induction m with
  | nil => simp [hashMapInsert, lookupName]
  | cons kv rest ih =>
    obtain ⟨k₀, v₀⟩ := kv
    by_cases h : k₀ = k
    · subst h
      simp only [hashMapInsert, if_pos rfl]
      by_cases hk : k₀ = k'
      · subst hk
        simp [lookupName]
      · simp [lookupName, hk]
    · simp only [hashMapInsert, if_neg h]
      by_cases hk : k₀ = k'
      · subst hk
        have hne : ¬ k = k₀ := fun hh => h hh.symm
        simp [lookupName, hne]
      · simp [lookupName, hk, ih]

/-- Membership in the keys of a map after hashMapInsert. -/
theorem mem_keys_hashMapInsert {α : Type} (m : List (String × α)) (k x : String) (v : α) :
    x ∈ (hashMapInsert m k v).map Prod.fst ↔ x ∈ m.map Prod.fst ∨ x = k := by
  induction m with
  | nil => simp [hashMapInsert]
  | cons kv rest ih =>
    obtain ⟨k₀, v₀⟩ := kv
    by_cases h : k₀ = k
    · subst h
      have heq : hashMapInsert ((k₀, v₀) :: rest) k₀ v = (k₀, v) :: rest := by
        simp [hashMapInsert]
      rw [heq]
      simp only [List.map_cons, List.mem_cons]
      tauto
    · have heq : hashMapInsert ((k₀, v₀) :: rest) k v = (k₀, v₀) :: hashMapInsert rest k v := by
        simp [hashMapInsert, h]
      rw [heq]
      simp only [List.map_cons, List.mem_cons, ih]
      tauto

/-- hashMapInsert preserves distinctness of the keys. -/
theorem nodup_keys_hashMapInsert {α : Type} (m : List (String × α)) (k : String) (v : α)
    (h : (m.map Prod.fst).Nodup) : ((hashMapInsert m k v).map Prod.fst).Nodup := by
  induction m with
  | nil => simp [hashMapInsert]
  | cons kv rest ih =>
    obtain ⟨k₀, v₀⟩ := kv
    simp only [List.map_cons, List.nodup_cons] at h
    by_cases hk : k₀ = k
    · subst hk
      have heq : hashMapInsert ((k₀, v₀) :: rest) k₀ v = (k₀, v) :: rest := by
        simp [hashMapInsert]
      rw [heq]
      simp only [List.map_cons, List.nodup_cons]
      exact h
    · have heq : hashMapInsert ((k₀, v₀) :: rest) k v = (k₀, v₀) :: hashMapInsert rest k v := by
        simp [hashMapInsert, hk]
      rw [heq]
      simp only [List.map_cons, List.nodup_cons]
      refine ⟨?_, ih h.2⟩
      intro hmem
      rcases (mem_keys_hashMapInsert rest k k₀ v).mp hmem with hh | hh
      · exact h.1 hh
      · exact hk hh

/-- The key lookup after folding wrStep over a list of ops: the last op bearing
the name wins, and names untouched by the ops fall through to the starting
map. -/
theorem lookup_foldl_wrStep (ops : List WrOp) :
    ∀ (m : List (String × WrValueDto)) (name : String),
      lookupName (List.foldl wrStep m ops) name =
        match lastWrShape ops name with
        | some v => some v
        | none => lookupName m name := by
  induction ops with
  | nil =>
    intro m name
    simp [lastWrShape]
  | cons op rest ih =>
    intro m name
    rw [List.foldl_cons, ih (wrStep m op) name]
    have hstep : lookupName (wrStep m op) name =
        if wrName op = name then some (wrShape op) else lookupName m name := by
      cases op with
      | Default p v => simp [wrStep, wrName, wrShape, lookupName_hashMapInsert]
      | WithType p t v => simp [wrStep, wrName, wrShape, lookupName_hashMapInsert]
    cases hls : lastWrShape rest name with
    | some v => simp [lastWrShape, hls]
    | none =>
      simp only [lastWrShape, hls, hstep]
      by_cases hop : wrName op = name <;> simp [hop]

/-- Folding wrStep preserves distinctness of the map keys. -/
theorem nodup_keys_foldl_wrStep (ops : List WrOp) :
    ∀ m : List (String × WrValueDto),
      (m.map Prod.fst).Nodup → ((List.foldl wrStep m ops).map Prod.fst).Nodup := by
  induction ops with
  | nil => intro m h; simpa using h
  | cons op rest ih =>
    intro m h
    rw [List.foldl_cons]
    refine ih (wrStep m op) ?_
    cases op with
    | Default p v => exact nodup_keys_hashMapInsert m p _ h
    | WithType p t v => exact nodup_keys_hashMapInsert m p _ h

/-- C6: compiling a WrOp list to the wire map maps each parameter name to its
value shape, a Default op to the bare-number shape and a WithType op to the
value-and-type shape, with the last occurrence of a duplicated name winning,
and the compiled map never binds a name to more than one entry (its keys are
distinct). -/
theorem compile_wrops_spec (ops : List WrOp) :
    ((compile_wrops ops).map Prod.fst).Nodup ∧
    ∀ name : String, lookupName (compile_wrops ops) name = lastWrShape ops name := by
  constructor
  · exact nodup_keys_foldl_wrStep ops [] (by simp)
  · intro name
    show lookupName (List.foldl wrStep [] ops) name = lastWrShape ops name
    rw [lookup_foldl_wrStep ops [] name]
    cases hls : lastWrShape ops name <;> simp [lookupName]

/-- Element lookup in a zipWith of two lists pairs the elements at the same
position. -/
theorem get?_zipWith {α β γ : Type} (f : α → β → γ) :
    ∀ (as : List α) (bs : List β) (i : Nat),
      (List.zipWith f as bs).get? i =
        match as.get? i, bs.get? i with
        | some a, some b => some (f a b)
        | _, _ => none := by
  intro as
  induction as with
  | nil => intro bs i; cases bs <;> cases i <;> simp
  | cons a as ih =>
    intro bs i
    cases bs with
    | nil => cases i <;> simp
    | cons b bs =>
      cases i with
      | zero => simp
      | succ i => simpa using ih bs i

/-- C7: apply_result obeys the absence law. For a binding at position i whose
parameter name is absent from the result map or present with null, the field at
position i is unchanged after apply_result; for a binding whose name is present
with a numeric value, the field equals that value after apply_result. An
absent key and an explicit null lead to the same unchanged field. -/
theorem apply_result_absence_law (rec : MappedRecord) (result : List (String × Option Float))
    (i : Nat) (name : String)
    (hlen : rec.bindings.length = rec.fields.length)
    (hname : rec.bindings.get? i = some name) :
    ((lookupName result name = none ∨ lookupName result name = some none) →
      (apply_result rec result).fields.get? i = rec.fields.get? i) ∧
    (∀ v : Float, lookupName result name = some (some v) →
      (apply_result rec result).fields.get? i = some v) := by
  have hi : i < rec.bindings.length := by
    by_contra hcon
    rw [List.get?_eq_none.mpr (by omega)] at hname
    exact Option.noConfusion hname
  have hif : i < rec.fields.length := by omega
  obtain ⟨x, hx⟩ : ∃ x, rec.fields.get? i = some x :=
    ⟨rec.fields.get ⟨i, hif⟩, List.get?_eq_get hif⟩
  have hz : (apply_result rec result).fields.get? i = some (applyField result name x) := by
    show (List.zipWith (applyField result) rec.bindings rec.fields).get? i = _
    rw [get?_zipWith, hname, hx]
  constructor
  · intro habs
    rw [hz, hx]
    rcases habs with h | h <;> simp [applyField, h]
  · intro v hv
    rw [hz]
    simp [applyField, hv]

/-- C7 (witness): the absence law applied to a two-field record whose first
binding receives the value 9.0 and whose second binding is absent from the
result map. -/
theorem apply_result_absence_law_witness :
    (apply_result sampleRecord sampleResult).fields.get? 0 = some 9.0 ∧
    (apply_result sampleRecord sampleResult).fields.get? 1 = sampleRecord.fields.get? 1 := by
  have h0 := apply_result_absence_law sampleRecord sampleResult 0 "a" (by decide) (by decide)
  have h1 := apply_result_absence_law sampleRecord sampleResult 1 "b" (by decide) (by decide)
  exact ⟨h0.2 9.0 rfl, h1.1 (Or.inl rfl)⟩

end Netcom

namespace Netcom

/-- C1 (counterexample): connect on a fresh client over a transport whose
version frame is malformed returns an error, yet the client keeps the stored
transport handle, so is_connected is true after the failing connect, contrary
to the claim that failure at any step leaves the connection disconnected. -/
theorem connect_error_keeps_stream :
    NetcomClient.connect cexClient cexEnv trivialCodec =
      some { client := { cexClient with stream := some () }, reads := [],
             written := [handshakeBytes],
             result := .error (.NetstringError .Malformed) } ∧
    ClientState.is_connected { cexClient with stream := some () } = true :=
  ⟨rfl, rfl⟩

/-- C1 (amended): when connect on a disconnected client returns an error, the
version field is never updated; a failure at the transport open or at the
handshake write leaves the client exactly as it was (hence disconnected); but a
failure at reading or decoding the version frame leaves the transport handle
stored, so the client reports connected. -/
theorem connect_error_state (c : ClientState) (env : OpEnv) (cd : Codec)
    (o : Out Unit) (e : NetcomError)
    (hc : c.stream = none)
    (hrun : NetcomClient.connect c env cd = some o)
    (herr : o.result = .error e) :
    o.client.version = c.version ∧
    ((env.tcpConnect.isOk = false ∨ env.hsWrite.isOk = false) → o.client = c) ∧
    (env.tcpConnect.isOk = true → env.hsWrite.isOk = true →
      o.client.stream = some ()) := by
  unfold NetcomClient.connect at hrun
  cases htc : env.tcpConnect with
  | error ec =>
    rw [htc] at hrun
    simp only [Option.some.injEq] at hrun
    subst hrun
    exact ⟨rfl, fun _ => rfl, fun h1 _ => Bool.noConfusion h1⟩
  | ok u =>
    cases u
    rw [htc] at hrun
    cases hhs : env.hsWrite with
    | error ec =>
      rw [hhs] at hrun
      simp only [Option.some.injEq] at hrun
      subst hrun
      exact ⟨rfl, fun _ => rfl, fun _ h2 => Bool.noConfusion h2⟩
    | ok u₂ =>
      cases u₂
      rw [hhs] at hrun
      dsimp only at hrun
      cases hrl : NetcomClient.read_netstring { c with stream := some () } env.reads with
      | starved m =>
        rw [hrl] at hrun
        exact Option.noConfusion hrun
      | failed e₂ rest =>
        rw [hrl] at hrun
        simp only [Option.some.injEq] at hrun
        subst hrun
        exact ⟨rfl,
          fun hd => hd.elim (fun hh => Bool.noConfusion hh) (fun hh => Bool.noConfusion hh),
          fun _ _ => rfl⟩
      | done json rest =>
        rw [hrl] at hrun
        dsimp only at hrun
        cases hdec : cd.decodeUpgrade json with
        | error e₃ =>
          rw [hdec] at hrun
          simp only [Option.some.injEq] at hrun
          subst hrun
          exact ⟨rfl,
            fun hd => hd.elim (fun hh => Bool.noConfusion hh) (fun hh => Bool.noConfusion hh),
            fun _ _ => rfl⟩
        | ok resp =>
          rw [hdec] at hrun
          simp only [Option.some.injEq] at hrun
          subst hrun
          exact Except.noConfusion herr

/-- C1 (witness): the amended theorem applied to a transport that fails at
open with io error code 7; the client is returned unchanged. -/
theorem connect_error_state_witness :
    earlyFailOut.client.version = cexClient.version ∧
    ((earlyFailEnv.tcpConnect.isOk = false ∨ earlyFailEnv.hsWrite.isOk = false) →
      earlyFailOut.client = cexClient) ∧
    (earlyFailEnv.tcpConnect.isOk = true → earlyFailEnv.hsWrite.isOk = true →
      earlyFailOut.client.stream = some ()) :=
  connect_error_state cexClient earlyFailEnv trivialCodec earlyFailOut
    (.StreamError 7) rfl rfl rfl

/-- C5 (code bug): push_client_info on a mismatched response discriminator
returns a protocol error whose message names the expected tag device-list,
copied from get_device_list, instead of the operation's own expected tag
client-info. Here the response is tagged write and the produced error message
is the device-list one. -/
theorem push_client_info_mismatch_message :
    NetcomClient.push_client_info connectedClient respEnv clientInfoMismatchCodec "tester" =
      some { client := connectedClient, reads := [], written := [to_netstring []],
             result := .error (.ResponseError
               "Expected response type device-list, got \"write\"") } :=
  rfl

/-- With a transport handle held, prepare is a no-op that succeeds. -/
theorem prepare_connected (c : ClientState) (env : OpEnv) (cd : Codec)
    (h : c.stream = some ()) :
    NetcomClient.prepare c env cd = some ⟨c, env.reads, [], .ok ()⟩ := by
  unfold NetcomClient.prepare
  have hcond : ¬(c.auto_connect = true ∧ c.stream = none) := by
    rintro ⟨_, h₂⟩
    rw [h] at h₂
    exact Option.noConfusion h₂
  rw [if_neg hcond]

/-- With a transport handle held, read_parameters leaves every client field
unchanged, whatever the transport and codec deliver. -/
theorem read_parameters_connected_client (c : ClientState) (env : OpEnv) (cd : Codec)
    (device : String) (parameters : List RdOp) (o : Out (List (String × Option Float)))
    (h : c.stream = some ())
    (hrun : NetcomClient.read_parameters c env cd device parameters = some o) :
    o.client = c := by
  unfold NetcomClient.read_parameters NetcomClient.send_request at hrun
  cases henc : cd.encodeReadReq { r := "read", device := device, p := compile_rdops parameters } with
  | error u =>
    rw [henc] at hrun
    simp only [Option.some.injEq] at hrun
    subst hrun
    rfl
  | ok s =>
    rw [henc] at hrun
    unfold NetcomClient.send_buf at hrun
    rw [prepare_connected c env cd h] at hrun
    simp only [h, List.nil_append] at hrun
    cases hw : env.reqWrite with
    | error ew =>
      rw [hw] at hrun
      simp only [Option.some.injEq] at hrun
      subst hrun
      rfl
    | ok uw =>
      rw [hw] at hrun
      unfold NetcomClient.wait_for_response NetcomClient.read_netstring at hrun
      simp only [h] at hrun
      cases hrl : NetcomClient.read_loop env.reads [] with
      | starved m =>
        rw [hrl] at hrun
        exact Option.noConfusion hrun
      | failed ef rest =>
        rw [hrl] at hrun
        simp only [Option.some.injEq] at hrun
        subst hrun
        rfl
      | done sp rest =>
        rw [hrl] at hrun
        dsimp only at hrun
        cases hdec : cd.decodeRead sp with
        | error ed =>
          rw [hdec] at hrun
          simp only [Option.some.injEq] at hrun
          subst hrun
          rfl
        | ok rr =>
          rw [hdec] at hrun
          by_cases htag : rr.r = "read"
          · simp only [htag, if_true, Option.some.injEq] at hrun
            subst hrun
            rfl
          · simp only [if_neg htag, Option.some.injEq] at hrun
            subst hrun
            rfl

/-- C8: when read_parameters receives a response with a mismatched
discriminator on a connected client, no caller-visible state changes: the
returned client state equals the inbound one in every field, and in
read_struct the error path hands the record back untouched, apply_result is
not invoked. -/
theorem mismatch_preserves_state (c : ClientState) (env : OpEnv) (cd : Codec)
    (device : String) (parameters : List RdOp) (rec : MappedRecord)
    (hconn : c.stream = some ()) :
    (∀ (o : Out (List (String × Option Float))) (msg : String),
      NetcomClient.read_parameters c env cd device parameters = some o →
      o.result = .error (.ResponseError msg) → o.client = c) ∧
    (∀ (o : Out (List (String × Option Float))) (rec' : MappedRecord) (msg : String),
      NetcomClient.read_struct c env cd device rec = some (o, rec') →
      o.result = .error (.ResponseError msg) → o.client = c ∧ rec' = rec) := by
  refine ⟨fun o msg hrun _ =>
    read_parameters_connected_client c env cd device parameters o hconn hrun, ?_⟩
  intro o rec' msg hrun herr
  unfold NetcomClient.read_struct at hrun
  cases hrp : NetcomClient.read_parameters c env cd device (to_rdops rec) with
  | none =>
    rw [hrp] at hrun
    exact Option.noConfusion hrun
  | some o₀ =>
    rw [hrp] at hrun
    cases hres : o₀.result with
    | ok res =>
      simp only [hres, Option.some.injEq, Prod.mk.injEq] at hrun
      obtain ⟨h₁, _⟩ := hrun
      subst h₁
      rw [hres] at herr
      exact Except.noConfusion herr
    | error e =>
      simp only [hres, Option.some.injEq, Prod.mk.injEq] at hrun
      obtain ⟨h₁, h₂⟩ := hrun
      subst h₁
      exact ⟨read_parameters_connected_client c env cd device (to_rdops rec) o₀ hconn hrp,
        h₂.symm⟩

/-- C8 (witness): the frame condition applied to a connected client receiving
a response tagged write on a read request: both for read_parameters and for
read_struct the client comes back unchanged and the record untouched. -/
theorem mismatch_preserves_state_witness :
    mismatchReadOut.client = connectedClient ∧
    (mismatchReadOut.client = connectedClient ∧ sampleRecord = sampleRecord) := by
  have h := mismatch_preserves_state connectedClient respEnv readMismatchCodec
    "dev" [] sampleRecord rfl
  exact ⟨h.1 mismatchReadOut ("Expected response type 'read', got " ++ rustDebug "write")
      rfl rfl,
    h.2 mismatchReadOut sampleRecord
      ("Expected response type 'read', got " ++ rustDebug "write") rfl rfl⟩

/-- The two frame read loops, translated one from each client file, are the
same function. -/
theorem read_loop_funeq : NetcomClientSync.read_loop = NetcomClientAsync.read_loop := by
  funext rs msg
  induction rs generalizing msg with
  | nil => rfl
  | cons r rest ih =>
    cases r with
    | error e => rfl
    | ok chunk =>
      simp only [NetcomClientSync.read_loop, NetcomClientAsync.read_loop]
      cases hp : parse_netstring (msg ++ chunk) with
      | ok s => rfl
      | error e =>
        cases e with
        | Incomplete => exact ih (msg ++ chunk)
        | Malformed => rfl

/-- C9: the blocking client and the cooperative client implement the same
protocol logic. For every client state, every transport behavior, every codec
and every operation input, the two produce the same outgoing bytes, the same
results and the same errors, operation by operation. -/
theorem sync_async_equiv (c : ClientState) (env : OpEnv) (cd : Codec)
    (device name : String) (rops : List RdOp) (wops : List WrOp) (rec : MappedRecord) :
    NetcomClientSync.connect c env cd = NetcomClientAsync.connect c env cd ∧
    NetcomClientSync.get_device_list c env cd = NetcomClientAsync.get_device_list c env cd ∧
    NetcomClientSync.push_client_info c env cd name =
      NetcomClientAsync.push_client_info c env cd name ∧
    NetcomClientSync.read_parameters c env cd device rops =
      NetcomClientAsync.read_parameters c env cd device rops ∧
    NetcomClientSync.write_parameters c env cd device wops =
      NetcomClientAsync.write_parameters c env cd device wops ∧
    NetcomClientSync.read_struct c env cd device rec =
      NetcomClientAsync.read_struct c env cd device rec ∧
    NetcomClientSync.write_struct c env cd device rec =
      NetcomClientAsync.write_struct c env cd device rec := by
  refine ⟨?_, ?_, ?_, ?_, ?_, ?_, ?_⟩ <;>
    simp only [NetcomClientSync.connect, NetcomClientAsync.connect,
      NetcomClientSync.read_netstring, NetcomClientAsync.read_netstring,
      NetcomClientSync.prepare, NetcomClientAsync.prepare,
      NetcomClientSync.send_buf, NetcomClientAsync.send_buf,
      NetcomClientSync.send_request, NetcomClientAsync.send_request,
      NetcomClientSync.wait_for_response, NetcomClientAsync.wait_for_response,
      NetcomClientSync.get_device_list, NetcomClientAsync.get_device_list,
      NetcomClientSync.push_client_info, NetcomClientAsync.push_client_info,
      NetcomClientSync.read_parameters, NetcomClientAsync.read_parameters,
      NetcomClientSync.write_parameters, NetcomClientAsync.write_parameters,
      NetcomClientSync.read_struct, NetcomClientAsync.read_struct,
      NetcomClientSync.write_struct, NetcomClientAsync.write_struct,
      read_loop_funeq]

/-- A read loop fed only zero-length reads stays on the same unparseable
buffer and consumes every modelled read without returning, in both the
netcom.rs client and the blocking client. -/
theorem read_loop_zero_reads (n : Nat) :
    ∀ msg : Bytes, parse_netstring msg = .error .Incomplete →
      NetcomClient.read_loop (List.replicate n (Except.ok [])) msg = .starved msg ∧
      NetcomClientSync.read_loop (List.replicate n (Except.ok [])) msg = .starved msg := by
  induction n with
  | zero => intro msg _; exact ⟨rfl, rfl⟩
  | succ n ih =>
    intro msg h
    constructor
    · rw [List.replicate_succ]
      simp only [NetcomClient.read_loop, List.append_nil, h]
      exact (ih msg h).1
    · rw [List.replicate_succ]
      simp only [NetcomClientSync.read_loop, List.append_nil, h]
      exact (ih msg h).2

/-- C10: the frame read loop has no handling for a zero-length transport read.
If every read returns zero bytes while the accumulated buffer still decodes as
Incomplete, the loop is still waiting after consuming any number n of reads: it
neither returns a payload nor an error, for the netcom.rs client and the
blocking client alike, and read_netstring on a connected client starves the
same way. -/
theorem read_netstring_zero_reads_never_returns (n : Nat) (msg : Bytes)
    (h : parse_netstring msg = .error .Incomplete) :
    NetcomClient.read_loop (List.replicate n (Except.ok [])) msg = .starved msg ∧
    NetcomClientSync.read_loop (List.replicate n (Except.ok [])) msg = .starved msg ∧
    (∀ c : ClientState, c.stream = some () →
      NetcomClient.read_netstring c (List.replicate n (Except.ok [])) = .starved [] ∧
      NetcomClientSync.read_netstring c (List.replicate n (Except.ok [])) = .starved []) := by
  refine ⟨(read_loop_zero_reads n msg h).1, (read_loop_zero_reads n msg h).2, ?_⟩
  intro c hc
  constructor
  · unfold NetcomClient.read_netstring
    rw [hc]
    exact (read_loop_zero_reads n [] rfl).1
  · unfold NetcomClientSync.read_netstring
    rw [hc]
    exact (read_loop_zero_reads n [] rfl).2

/-- C10 (witness): three successive zero-length reads leave both loops still
waiting on the empty buffer, and read_netstring on a connected client starves
the same way. -/
theorem read_netstring_zero_reads_witness :
    NetcomClient.read_loop (List.replicate 3 (Except.ok [])) [] = .starved [] ∧
    NetcomClientSync.read_loop (List.replicate 3 (Except.ok [])) [] = .starved [] ∧
    NetcomClient.read_netstring connectedClient (List.replicate 3 (Except.ok [])) =
      .starved [] ∧
    NetcomClientSync.read_netstring connectedClient (List.replicate 3 (Except.ok [])) =
      .starved [] := by
  have h := read_netstring_zero_reads_never_returns 3 [] rfl
  exact ⟨h.1, h.2.1, (h.2.2 connectedClient rfl).1, (h.2.2 connectedClient rfl).2⟩

end Netcom
